import Mathlib

/-
Verification of the archivos document-management backend.

The definitions below are a shallow embedding of the Python source:
  - src/backend/app/models.py        (data model, SQLAlchemy ORM)
  - src/backend/app/crud.py          (database operations)
  - src/backend/app/routers/files.py (file and comment endpoints)
  - src/backend/app/routers/admin.py (role management endpoint)
  - src/backend/app/routers/users.py (user management endpoints)
  - src/backend/app/google_drive.py  (credential vault)

Machine integers do not occur (all ids and sizes are unbounded Python
ints); timestamps are modelled as logical clock ticks (Nat), strictly
increasing across inserts, which soundly models datetime.utcnow defaults
in a single-threaded run.
-/

namespace Archivos

/-- Python str.capitalize: first character upper-cased, the rest
lower-cased.  Used for the default AdminProfile display name
(admin.py line 201: user.email.split at the at-sign, index 0, capitalize). -/
def pyCapitalize (s : String) : String :=
  match s.data with
  | [] => ""
  | c :: cs => String.mk (c.toUpper :: cs.map Char.toLower)

/-- Python truthiness of an Optional[str]: None and the empty string are
falsy.  Used wherever the source writes a bare `if value:` test on a
nullable string column. -/
def pyFalsyStr (o : Option String) : Bool :=
  match o with
  | none => true
  | some s => s.isEmpty

/-- Python truthiness of an Optional[int]: None and 0 are falsy.  Used for
`if admin_id:` style tests on optional integer query parameters. -/
def pyTruthyNat (o : Option Nat) : Bool :=
  match o with
  | none => false
  | some n => n != 0

/-- Insert into a list sorted by the boolean relation r (insertion step of
the ORDER BY model). -/
def orderByInsert (r : α → α → Bool) (x : α) : List α → List α
  | [] => [x]
  | y :: ys => if r x y then x :: y :: ys else y :: orderByInsert r x ys

/-- Insertion sort by a boolean relation: models a SQL ORDER BY clause. -/
def orderBy (r : α → α → Bool) : List α → List α
  | [] => []
  | x :: xs => orderByInsert r x (orderBy r xs)

/-! ## Data model (models.py) -/

/-- models.py RoleEnum: user, admin, superadmin. -/
inductive RoleEnum where
  | user
  | admin
  | superadmin
deriving DecidableEq, Repr

/-- models.py class User. -/
structure User where
  id : Nat
  email : String
  password_hash : String
  role : RoleEnum
  created_at : Nat := 0
  updated_at : Nat := 0
deriving DecidableEq, Repr

/-- models.py class Admin: the AdminProfile record.  user_id carries a
UNIQUE constraint in the schema. -/
structure Admin where
  id : Nat
  user_id : Nat
  name : String
  encrypted_drive_cred : Option String := none
  drive_folder_id : Option String := none
  folder_pendientes_id : Option String := none
  folder_en_revision_id : Option String := none
  folder_aprobados_id : Option String := none
  folder_rechazados_id : Option String := none
  folder_archivados_id : Option String := none
  created_at : Nat := 0
  updated_at : Nat := 0
deriving DecidableEq, Repr

/-- models.py class File: metadata record for a remote-stored file. -/
structure File where
  id : Nat
  filename : String
  original_filename : String
  drive_file_id : Option String := none
  mime_type : Option String := none
  file_size : Option Nat := none
  owner_admin_id : Nat
  uploaded_by_user_id : Nat
  description : Option String := none
  created_at : Nat := 0
  updated_at : Nat := 0
deriving DecidableEq, Repr

/-- models.py class Comment. -/
structure Comment where
  id : Nat
  file_id : Nat
  user_id : Nat
  text : String
  created_at : Nat := 0
  updated_at : Nat := 0
deriving DecidableEq, Repr

/-- models.py class CommentHistory: one audit entry for a comment
mutation; action is one of the strings "created", "edited", "deleted". -/
structure CommentHistory where
  id : Nat
  comment_id : Nat
  action : String
  previous_text : Option String := none
  new_text : Option String := none
  actor_user_id : Nat
  timestamp : Nat := 0
deriving DecidableEq, Repr

/-- The relational store: one list per table, the user_admins
many-to-many join table as a list of (user_id, admin_id) pairs,
autoincrement counters for surrogate keys, and a logical clock supplying
the utcnow timestamp defaults. -/
structure DB where
  users : List User
  admins : List Admin
  user_admins : List (Nat × Nat)
  files : List File
  comments : List Comment
  comment_history : List CommentHistory
  next_admin_id : Nat := 1
  next_file_id : Nat := 1
  next_comment_id : Nat := 1
  next_history_id : Nat := 1
  clock : Nat := 0
deriving DecidableEq, Repr

/-- Fields a PATCH user request may carry (schemas.py UserUpdate with
exclude_unset; crud.update_user additionally skips None values, so an
Option per column is an exact model). -/
structure UserUpdateArgs where
  email : Option String := none
  password : Option String := none
  role : Option RoleEnum := none
deriving DecidableEq, Repr

/-- HTTPException outcomes raised by the routers. -/
inductive HErr where
  | badRequest (detail : String)
  | forbidden (detail : String)
  | notFound (detail : String)
  | internalError (detail : String)
deriving DecidableEq, Repr

/-! ## crud.py -/

namespace Crud

/-- crud.get_user_by_id. -/
def get_user_by_id (db : DB) (user_id : Nat) : Option User :=
  db.users.find? (fun u => u.id == user_id)

/-- crud.get_admin_by_user_id. -/
def get_admin_by_user_id (db : DB) (user_id : Nat) : Option Admin :=
  db.admins.find? (fun a => a.user_id == user_id)

/-- crud.get_admin_by_id. -/
def get_admin_by_id (db : DB) (admin_id : Nat) : Option Admin :=
  db.admins.find? (fun a => a.id == admin_id)

/-- crud.create_admin_profile: inserts an Admin row for user_id. -/
def create_admin_profile (db : DB) (user_id : Nat) (name : String) :
    DB × Admin :=
  let admin : Admin :=
    { id := db.next_admin_id, user_id := user_id, name := name,
      created_at := db.clock, updated_at := db.clock }
  ({ db with admins := db.admins ++ [admin],
             next_admin_id := db.next_admin_id + 1,
             clock := db.clock + 1 }, admin)

/-- crud.update_user with the kwargs reachable from the routers under
verification (email, password, role); None-valued kwargs are skipped by
the source (`if value is not None`).  hashPw models
app.auth.get_password_hash (bcrypt), opaque to every property proved
here. -/
def update_user (hashPw : String → String) (db : DB) (user_id : Nat)
    (args : UserUpdateArgs) : Option (DB × User) :=
  match get_user_by_id db user_id with
  | none => none
  | some u =>
    let u1 := match args.email with
      | some e => { u with email := e }
      | none => u
    let u2 := match args.password with
      | some p => { u1 with password_hash := hashPw p }
      | none => u1
    let u3 := match args.role with
      | some r => { u2 with role := r }
      | none => u2
    let u4 := { u3 with updated_at := db.clock }
    some ({ db with
              users := db.users.map (fun x => if x.id == user_id then u4 else x),
              clock := db.clock + 1 }, u4)

/-- crud.associate_user_with_admin: returns False when user or admin is
missing; appends the join row only when the pair is not yet present;
returns True whenever both records exist. -/
def associate_user_with_admin (db : DB) (user_id : Nat) (admin_id : Nat) :
    DB × Bool :=
  match get_user_by_id db user_id, get_admin_by_id db admin_id with
  | none, _ => (db, false)
  | some _, none => (db, false)
  | some _, some _ =>
    if db.user_admins.any (fun p => p.1 == user_id && p.2 == admin_id) then
      (db, true)
    else
      ({ db with user_admins := db.user_admins ++ [(user_id, admin_id)] }, true)

/-- crud.get_user_admins: the admins reachable through the user_admins
join table; empty when the user row is missing. -/
def get_user_admins (db : DB) (user_id : Nat) : List Admin :=
  match get_user_by_id db user_id with
  | none => []
  | some _ =>
    db.admins.filter (fun a =>
      db.user_admins.any (fun p => p.1 == user_id && p.2 == a.id))

/-- crud.create_file: inserts a File row. -/
def create_file (db : DB) (filename : String) (original_filename : String)
    (owner_admin_id : Nat) (uploaded_by_user_id : Nat)
    (drive_file_id : Option String) (mime_type : Option String)
    (file_size : Option Nat) (description : Option String) : DB × File :=
  let file : File :=
    { id := db.next_file_id, filename := filename,
      original_filename := original_filename,
      drive_file_id := drive_file_id, mime_type := mime_type,
      file_size := file_size, owner_admin_id := owner_admin_id,
      uploaded_by_user_id := uploaded_by_user_id,
      description := description,
      created_at := db.clock, updated_at := db.clock }
  ({ db with files := db.files ++ [file],
             next_file_id := db.next_file_id + 1,
             clock := db.clock + 1 }, file)

/-- crud.get_file_by_id. -/
def get_file_by_id (db : DB) (file_id : Nat) : Option File :=
  db.files.find? (fun f => f.id == file_id)

/-- crud.list_files: optional truthiness-guarded filters on uploader and
owning admin, ORDER BY created_at DESC, OFFSET skip, LIMIT limit. -/
def list_files (db : DB) (user_id : Option Nat) (admin_id : Option Nat)
    (skip : Nat) (limit : Nat) : List File :=
  let q1 := if pyTruthyNat user_id then
      db.files.filter (fun f => f.uploaded_by_user_id == user_id.getD 0)
    else db.files
  let q2 := if pyTruthyNat admin_id then
      q1.filter (fun f => f.owner_admin_id == admin_id.getD 0)
    else q1
  ((orderBy (fun f g => g.created_at ≤ f.created_at) q2).drop skip).take limit

/-- crud.delete_file: removes the File row.  The ORM cascades of
models.py (File.comments, then Comment.history, both
cascade all-delete-orphan) also remove the file comments and their
history entries. -/
def delete_file (db : DB) (file_id : Nat) : DB × Bool :=
  match get_file_by_id db file_id with
  | none => (db, false)
  | some _ =>
    ({ db with
         files := db.files.filter (fun f => !(f.id == file_id)),
         comments := db.comments.filter (fun c => !(c.file_id == file_id)),
         comment_history := db.comment_history.filter (fun h =>
           !(db.comments.any (fun c => c.file_id == file_id && c.id == h.comment_id))) },
     true)

/-- crud.create_comment: inserts the Comment row, then one
CommentHistory row (action "created", previous_text None, new_text the
created text, actor the creating user). -/
def create_comment (db : DB) (file_id : Nat) (user_id : Nat) (text : String) :
    DB × Comment :=
  let comment : Comment :=
    { id := db.next_comment_id, file_id := file_id, user_id := user_id,
      text := text, created_at := db.clock, updated_at := db.clock }
  let history : CommentHistory :=
    { id := db.next_history_id, comment_id := comment.id,
      action := "created", previous_text := none, new_text := some text,
      actor_user_id := user_id, timestamp := db.clock + 1 }
  ({ db with comments := db.comments ++ [comment],
             comment_history := db.comment_history ++ [history],
             next_comment_id := db.next_comment_id + 1,
             next_history_id := db.next_history_id + 1,
             clock := db.clock + 2 }, comment)

/-- crud.get_comment_by_id. -/
def get_comment_by_id (db : DB) (comment_id : Nat) : Option Comment :=
  db.comments.find? (fun c => c.id == comment_id)

/-- crud.update_comment: None when the comment is missing; otherwise
updates the text in place and appends one CommentHistory row
(action "edited", previous_text the old text, new_text the new text). -/
def update_comment (db : DB) (comment_id : Nat) (text : String)
    (user_id : Nat) : Option (DB × Comment) :=
  match get_comment_by_id db comment_id with
  | none => none
  | some comment =>
    let updated : Comment :=
      { comment with text := text, updated_at := db.clock }
    let history : CommentHistory :=
      { id := db.next_history_id, comment_id := comment.id,
        action := "edited", previous_text := some comment.text,
        new_text := some text, actor_user_id := user_id,
        timestamp := db.clock + 1 }
    some ({ db with
              comments := db.comments.map (fun c =>
                if c.id == comment_id then updated else c),
              comment_history := db.comment_history ++ [history],
              next_history_id := db.next_history_id + 1,
              clock := db.clock + 2 }, updated)

/-- crud.delete_comment: appends one CommentHistory row
(action "deleted", previous_text the last text, new_text None), then
deletes the Comment row.  Per models.py the Comment.history relationship
carries cascade all-delete-orphan (and the FK is ondelete CASCADE), so
deleting the comment also deletes every CommentHistory row of that
comment, including the entry written just before. -/
def delete_comment (db : DB) (comment_id : Nat) (user_id : Nat) : DB × Bool :=
  match get_comment_by_id db comment_id with
  | none => (db, false)
  | some comment =>
    let history : CommentHistory :=
      { id := db.next_history_id, comment_id := comment.id,
        action := "deleted", previous_text := some comment.text,
        new_text := none, actor_user_id := user_id,
        timestamp := db.clock }
    let withEntry := db.comment_history ++ [history]
    ({ db with
         comments := db.comments.filter (fun c => !(c.id == comment_id)),
         comment_history := withEntry.filter (fun h => !(h.comment_id == comment_id)),
         next_history_id := db.next_history_id + 1,
         clock := db.clock + 1 }, true)

/-- crud.get_comment_history: the history rows of one comment, ORDER BY
timestamp ascending. -/
def get_comment_history (db : DB) (comment_id : Nat) : List CommentHistory :=
  orderBy (fun h g => h.timestamp ≤ g.timestamp)
    (db.comment_history.filter (fun h => h.comment_id == comment_id))

end Crud

/-! ## Authentication dependency gates -/

/-- Modelled from the spec: app/auth.py is not under src/ (only its
callers are).  Spec section 4.2: the get_admin_user dependency admits
exactly the admin and superadmin roles. -/
def get_admin_user_gate (u : User) : Bool :=
  u.role == RoleEnum.admin || u.role == RoleEnum.superadmin

/-- Modelled from the spec: app/auth.py is not under src/.  Spec section
4.2: the get_superadmin_user dependency admits only the superadmin
role. -/
def get_superadmin_user_gate (u : User) : Bool :=
  u.role == RoleEnum.superadmin

/-! ## Credential vault (google_drive.py) -/

namespace GoogleDriveService

/-- google_drive.py GoogleDriveService.encrypt_credentials: json.dumps
the credential dict, then Fernet-encrypt under the process-wide key.
The two external collaborators are parameters: json_dumps models
json.dumps (the blob type is abstract) and fernet_encrypt models
Fernet(key).encrypt composed with the UTF-8 encode and decode steps of
the source line. -/
def encrypt_credentials (fernet_encrypt : String → String)
    (json_dumps : α → String) (credentials_dict : α) : String :=
  fernet_encrypt (json_dumps credentials_dict)

/-- google_drive.py GoogleDriveService.decrypt_credentials:
Fernet-decrypt the stored ciphertext under the same process-wide key,
then json.loads the plaintext. -/
def decrypt_credentials (fernet_decrypt : String → String)
    (json_loads : String → α) (encrypted_creds : String) : α :=
  json_loads (fernet_decrypt encrypted_creds)

end GoogleDriveService

/-! ## Files router (routers/files.py) -/

namespace Files

/-- routers/files.py upload_file.  After resolving the owning admin, the
source checks `if not admin.encrypted_drive_cred or not
admin.drive_cred_type:`.  The Admin model (models.py) has no
drive_cred_type attribute: migration 26ca7dbacc24 dropped that column
and google_drive.py no longer takes a cred_type argument, but this
router still reads it.  When encrypted_drive_cred is falsy the or
short-circuits into the 400 branch; otherwise evaluating
admin.drive_cred_type raises AttributeError outside any try block,
surfacing as an internal server error.  The Drive upload call and the
crud.create_file call that follow in the source are therefore
unreachable and no File row is ever inserted by this endpoint. -/
def upload_file (db : DB) (current_user : User) (admin_id : Option Nat)
    (filename : String) (content_type : Option String)
    (description : Option String) : Except HErr (DB × File) :=
  let user_admins := Crud.get_user_admins db current_user.id
  match user_admins with
  | [] => .error (.badRequest "User is not associated with any admin. Please contact an administrator.")
  | a0 :: rest =>
    let adminRes : Except HErr Admin :=
      if pyTruthyNat admin_id then
        match (a0 :: rest).find? (fun a => a.id == admin_id.getD 0) with
        | some a => .ok a
        | none => .error (.forbidden "You are not associated with this admin")
      else .ok a0
    match adminRes with
    | .error e => .error e
    | .ok admin =>
      if pyFalsyStr admin.encrypted_drive_cred then
        .error (.badRequest "Admin has not configured Google Drive credentials")
      else
        let _ := (filename, content_type, description)
        .error (.internalError "AttributeError: Admin object has no attribute drive_cred_type")

/-- routers/files.py list_files.  A user-role caller sees only files of
admins in their association set; `if admin_id and admin_id not in
admin_ids:` uses Python int truthiness, then the per-admin loop keeps
aid when `admin_id is None or aid == admin_id`.  A non-user caller gets
the unrestricted crud listing.  The response pairs the files with the
total count. -/
def list_files (db : DB) (current_user : User) (admin_id : Option Nat)
    (skip : Nat) (limit : Nat) : Except HErr (List File × Nat) :=
  if current_user.role == RoleEnum.user then
    let user_admins := Crud.get_user_admins db current_user.id
    let admin_ids := user_admins.map (fun a => a.id)
    if pyTruthyNat admin_id && !(admin_ids.contains (admin_id.getD 0)) then
      .error (.forbidden "You are not associated with this admin")
    else
      let all_files := admin_ids.foldl (fun acc aid =>
        if (match admin_id with
            | none => true
            | some v => aid == v) then
          acc ++ Crud.list_files db none (some aid) skip limit
        else acc) []
      .ok (all_files, all_files.length)
  else
    let files := Crud.list_files db none admin_id skip limit
    .ok (files, files.length)

/-- routers/files.py get_file: 404 when missing; a user-role caller is
rejected with 403 unless the owning admin is in their association
set. -/
def get_file (db : DB) (current_user : User) (file_id : Nat) :
    Except HErr File :=
  match Crud.get_file_by_id db file_id with
  | none => .error (.notFound "File not found")
  | some file =>
    if current_user.role == RoleEnum.user then
      let user_admins := Crud.get_user_admins db current_user.id
      let admin_ids := user_admins.map (fun a => a.id)
      if !(admin_ids.contains file.owner_admin_id) then
        .error (.forbidden "Access denied")
      else .ok file
    else .ok file

/-- routers/files.py delete_file.  remote is the outcome of the
statement calling drive_service.delete_file inside the try block; in
the current source that statement always raises (evaluating the
cred_type keyword argument admin.drive_cred_type raises AttributeError,
the attribute having been removed from the Admin model), and any
exception from it is caught, logged with print, and ignored, so the
local deletion proceeds on every remote outcome. -/
def delete_file (db : DB) (current_user : User) (file_id : Nat)
    (remote : Except String Unit) : Except HErr DB :=
  match Crud.get_file_by_id db file_id with
  | none => .error (.notFound "File not found")
  | some file =>
    if current_user.role == RoleEnum.user &&
        !(file.uploaded_by_user_id == current_user.id) then
      .error (.forbidden "Access denied")
    else
      let admin := Crud.get_admin_by_id db file.owner_admin_id
      let _attempted : Bool :=
        match admin with
        | some a =>
          if !(pyFalsyStr a.encrypted_drive_cred) && !(pyFalsyStr file.drive_file_id) then
            match remote with
            | .ok _ => true
            | .error _ => true
          else false
        | none => false
      .ok (Crud.delete_file db file_id).1

/-- routers/files.py update_comment: 404 when the comment is missing or
attached to another file; only the author may update, every other
caller gets 403 whatever their role. -/
def update_comment (db : DB) (current_user : User) (file_id : Nat)
    (comment_id : Nat) (text : String) : Except HErr (DB × Comment) :=
  match Crud.get_comment_by_id db comment_id with
  | none => .error (.notFound "Comment not found")
  | some comment =>
    if !(comment.file_id == file_id) then
      .error (.notFound "Comment not found")
    else if !(comment.user_id == current_user.id) then
      .error (.forbidden "You can only update your own comments")
    else
      match Crud.update_comment db comment_id text current_user.id with
      | none => .error (.notFound "Comment not found")
      | some (db1, c1) => .ok (db1, c1)

/-- routers/files.py delete_comment: 404 when the comment is missing or
attached to another file; allowed to the author or to any caller whose
role is not user, otherwise 403. -/
def delete_comment (db : DB) (current_user : User) (file_id : Nat)
    (comment_id : Nat) : Except HErr DB :=
  match Crud.get_comment_by_id db comment_id with
  | none => .error (.notFound "Comment not found")
  | some comment =>
    if !(comment.file_id == file_id) then
      .error (.notFound "Comment not found")
    else if !(comment.user_id == current_user.id) &&
        current_user.role == RoleEnum.user then
      .error (.forbidden "Access denied")
    else
      .ok (Crud.delete_comment db comment_id current_user.id).1

end Files

/-! ## Admin router (routers/admin.py) -/

namespace AdminRouter

/-- routers/admin.py update_user_role (PUT /admin/users/user_id/role),
gated by the get_superadmin_user dependency.  404 when the target is
missing; 400 when the target id equals the caller id; otherwise the
role is updated and, when the new role is admin or superadmin and no
AdminProfile exists for the target, one is created with the display
name user.email.split at the at-sign, index 0, capitalized. -/
def update_user_role (hashPw : String → String) (db : DB)
    (current_user : User) (user_id : Nat) (role : RoleEnum) :
    Except HErr (DB × User) :=
  match Crud.get_user_by_id db user_id with
  | none => .error (.notFound "User not found")
  | some user =>
    if user.id == current_user.id then
      .error (.badRequest "Cannot change your own role")
    else
      match Crud.update_user hashPw db user_id { role := some role } with
      | none => .error (.notFound "User not found")
      | some (db1, updated_user) =>
        if role == RoleEnum.admin || role == RoleEnum.superadmin then
          match Crud.get_admin_by_user_id db1 user_id with
          | some _ => .ok (db1, updated_user)
          | none =>
            let name := pyCapitalize ((user.email.splitOn "@").headD "")
            .ok ((Crud.create_admin_profile db1 user_id name).1, updated_user)
        else .ok (db1, updated_user)

end AdminRouter

/-! ## Users router (routers/users.py) -/

namespace UsersRouter

/-- routers/users.py update_current_user (PATCH /users/me), gated by
get_current_user: the role key is removed from the update dict before
crud.update_user runs, so the caller role is never written through this
endpoint. -/
def update_current_user (hashPw : String → String) (db : DB)
    (current_user : User) (user_data : UserUpdateArgs) :
    Except HErr (DB × User) :=
  let update_dict := { user_data with role := none }
  match Crud.update_user hashPw db current_user.id update_dict with
  | none => .error (.internalError "null response")
  | some (db1, u1) => .ok (db1, u1)

/-- routers/users.py update_user (PATCH /users/user_id), gated by the
get_admin_user dependency (admin or superadmin callers).  The update
dict is passed to crud.update_user unchanged; schemas.py UserUpdate
includes the role field, and no check compares user_id with the caller
id. -/
def update_user (hashPw : String → String) (db : DB) (current_user : User)
    (user_id : Nat) (user_data : UserUpdateArgs) : Except HErr (DB × User) :=
  let _ := current_user
  match Crud.update_user hashPw db user_id user_data with
  | none => .error (.notFound "User not found")
  | some (db1, u1) => .ok (db1, u1)

end UsersRouter

/-! ## Proof auxiliaries (definitions used to state and prove the claims) -/

/-- The history rows of one comment, in table order. -/
def histFor (db : DB) (comment_id : Nat) : List CommentHistory :=
  db.comment_history.filter (fun h => h.comment_id == comment_id)

/-- The (action, previous_text, new_text) projection of a history row. -/
def projEntry (h : CommentHistory) : String × Option String × Option String :=
  (h.action, h.previous_text, h.new_text)

/-- Expected projections of the history rows written by a chain of edits
starting from the text prev. -/
def editEntries (prev : String) : List String → List (String × Option String × Option String)
  | [] => []
  | t :: ts => ("edited", some prev, some t) :: editEntries t ts

/-- Expected projected history of create with text t0 followed by the
edits ts. -/
def expectedHistory (t0 : String) (ts : List String) :
    List (String × Option String × Option String) :=
  ("created", none, some t0) :: editEntries t0 ts

/-- Run a chain of crud.update_comment calls on one comment. -/
def applyEdits (cid uid : Nat) : List String → DB → DB
  | [], db => db
  | t :: ts, db =>
    match Crud.update_comment db cid t uid with
    | none => db
    | some (db1, _) => applyEdits cid uid ts db1

/-- Number of AdminProfile rows whose user_id is uid; the schema keeps
this at most 1 (UNIQUE constraint on admins.user_id). -/
def adminCountFor (db : DB) (uid : Nat) : Nat :=
  (db.admins.filter (fun a => a.user_id == uid)).length

/-- The user record produced by crud.update_user (same let-chain as the
source; now is the clock value stamped into updated_at). -/
def applyUserArgs (hashPw : String → String) (args : UserUpdateArgs)
    (u : User) (now : Nat) : User :=
  let u1 := match args.email with
    | some e => { u with email := e }
    | none => u
  let u2 := match args.password with
    | some p => { u1 with password_hash := hashPw p }
    | none => u1
  let u3 := match args.role with
    | some r => { u2 with role := r }
    | none => u2
  { u3 with updated_at := now }

/-- The database carried out of an endpoint result (the input database
when the endpoint raised, since an HTTPException aborts before any
mutation in the operations modelled here). -/
def extractDB (r : Except HErr (DB × User)) (fallback : DB) : DB :=
  match r with
  | .ok p => p.1
  | .error _ => fallback

instance {ε α : Type} [DecidableEq ε] [DecidableEq α] : DecidableEq (Except ε α) :=
  fun x y =>
    match x, y with
    | .ok a, .ok b =>
      if h : a = b then isTrue (by rw [h]) else isFalse (fun hc => h (Except.ok.inj hc))
    | .error e, .error f =>
      if h : e = f then isTrue (by rw [h]) else isFalse (fun hc => h (Except.error.inj hc))
    | .ok _, .error _ => isFalse (fun hc => Except.noConfusion hc)
    | .error _, .ok _ => isFalse (fun hc => Except.noConfusion hc)

/-! ## Lemmas about the ORDER BY model -/

theorem mem_orderByInsert {r : α → α → Bool} {x a : α} :
    ∀ {l : List α}, a ∈ orderByInsert r x l ↔ a = x ∨ a ∈ l := by
  intro l
  induction l with
  | nil => simp [orderByInsert]
  | cons y ys ih =>
    simp only [orderByInsert]
    by_cases hrxy : r x y = true
    · rw [if_pos hrxy]
      simp [List.mem_cons]
    · rw [if_neg hrxy]
      simp only [List.mem_cons, ih]
      tauto

theorem mem_orderBy {r : α → α → Bool} {a : α} :
    ∀ {l : List α}, a ∈ orderBy r l ↔ a ∈ l := by
  intro l
  induction l with
  | nil => simp [orderBy]
  | cons y ys ih =>
    simp only [orderBy, mem_orderByInsert, ih, List.mem_cons]

theorem pairwise_orderByInsert {r : α → α → Bool}
    (htot : ∀ a b, r a b = true ∨ r b a = true)
    (htrans : ∀ a b c, r a b = true → r b c = true → r a c = true)
    (x : α) :
    ∀ {l : List α}, l.Pairwise (fun a b => r a b = true) →
      (orderByInsert r x l).Pairwise (fun a b => r a b = true) := by
  intro l
  induction l with
  | nil => intro _; simp [orderByInsert]
  | cons y ys ih =>
    intro hp
    rcases List.pairwise_cons.mp hp with ⟨hy, hys⟩
    simp only [orderByInsert]
    by_cases hrxy : r x y = true
    · rw [if_pos hrxy]
      refine List.pairwise_cons.mpr ⟨?_, hp⟩
      intro z hz
      rcases List.mem_cons.mp hz with hzy | hzys
      · exact hzy ▸ hrxy
      · exact htrans x y z hrxy (hy z hzys)
    · rw [if_neg hrxy]
      refine List.pairwise_cons.mpr ⟨?_, ih hys⟩
      intro z hz
      rcases mem_orderByInsert.mp hz with hzx | hzys
      · subst hzx
        rcases htot z y with h | h
        · exact absurd h hrxy
        · exact h
      · exact hy z hzys

theorem pairwise_orderBy {r : α → α → Bool}
    (htot : ∀ a b, r a b = true ∨ r b a = true)
    (htrans : ∀ a b c, r a b = true → r b c = true → r a c = true) :
    ∀ (l : List α), (orderBy r l).Pairwise (fun a b => r a b = true) := by
  intro l
  induction l with
  | nil => simp [orderBy]
  | cons y ys ih => exact pairwise_orderByInsert htot htrans y ih

theorem orderByInsert_eq_cons {r : α → α → Bool} {x : α} {l : List α}
    (h : ∀ z ∈ l, r x z = true) : orderByInsert r x l = x :: l := by
  cases l with
  | nil => rfl
  | cons y ys =>
    simp only [orderByInsert, if_pos (h y (List.mem_cons_self y ys))]

theorem orderBy_eq_self {r : α → α → Bool} :
    ∀ {l : List α}, l.Pairwise (fun a b => r a b = true) → orderBy r l = l := by
  intro l
  induction l with
  | nil => intro _; rfl
  | cons y ys ih =>
    intro hp
    rcases List.pairwise_cons.mp hp with ⟨hy, hys⟩
    simp only [orderBy, ih hys]
    exact orderByInsert_eq_cons hy

/-! ## Lemmas about keyed lookup and removal -/

theorem find?_key_eq {l : List α} {key : α → Nat} {k : Nat} {a : α}
    (h : l.find? (fun x => key x == k) = some a) : key a = k := by
  have h2 := List.find?_some h
  simpa using h2

theorem find?_key_filter_ne {l : List α} {key : α → Nat} {k : Nat} :
    (l.filter (fun x => !(key x == k))).find? (fun x => key x == k) = none := by
  rw [List.find?_eq_none]
  intro x hx
  have h2 := (List.mem_filter.mp hx).2
  simpa using h2

theorem filter_key_filter_ne {l : List α} {key : α → Nat} {k : Nat} :
    (l.filter (fun x => !(key x == k))).filter (fun x => key x == k) = [] := by
  rw [List.filter_eq_nil_iff]
  intro x hx
  have h2 := (List.mem_filter.mp hx).2
  simpa using h2

theorem find?_key_map_replace {l : List α} {key : α → Nat} {k : Nat} {b : α}
    (hb : key b = k) (hs : (l.find? (fun x => key x == k)).isSome = true) :
    (l.map (fun x => if key x == k then b else x)).find? (fun x => key x == k)
      = some b := by
  induction l with
  | nil => simp [List.find?] at hs
  | cons y ys ih =>
    rw [List.map_cons]
    by_cases hy : (key y == k) = true
    · rw [if_pos hy]
      exact List.find?_cons_of_pos _ (by simp [hb])
    · rw [if_neg hy, List.find?_cons_of_neg _ (by simpa using hy)]
      rw [List.find?_cons_of_neg _ (by simpa using hy)] at hs
      exact ih hs

theorem user_find?_map_replace {l : List User} {k : Nat} {b : User}
    (hb : b.id = k) (hs : (l.find? (fun x => x.id == k)).isSome = true) :
    (l.map (fun x => if x.id == k then b else x)).find? (fun x => x.id == k)
      = some b :=
  @find?_key_map_replace User l (fun x => x.id) k b hb hs

theorem find?_append_of_none {l1 l2 : List α} {p : α → Bool}
    (h : l1.find? p = none) : (l1 ++ l2).find? p = l2.find? p := by
  induction l1 with
  | nil => simp
  | cons y ys ih =>
    rw [List.find?_cons] at h
    cases hy : p y with
    | true => simp [hy] at h
    | false =>
      rw [List.cons_append, List.find?_cons, hy]
      exact ih (by simpa [hy] using h)

theorem mem_foldl_filtered_append {β : Type} {f : Nat → List β} {P : Nat → Bool}
    {g : β} :
    ∀ (ids : List Nat) (acc : List β),
      g ∈ ids.foldl (fun acc aid => if P aid then acc ++ f aid else acc) acc →
      g ∈ acc ∨ ∃ aid ∈ ids, g ∈ f aid := by
  intro ids
  induction ids with
  | nil => intro acc h; exact Or.inl h
  | cons i is ih =>
    intro acc h
    simp only [List.foldl_cons] at h
    by_cases hP : P i = true
    · rw [if_pos hP] at h
      rcases ih (acc ++ f i) h with hmem | ⟨aid, ha, hg⟩
      · rcases List.mem_append.mp hmem with h1 | h2
        · exact Or.inl h1
        · exact Or.inr ⟨i, List.mem_cons_self i is, h2⟩
      · exact Or.inr ⟨aid, List.mem_cons_of_mem i ha, hg⟩
    · rw [if_neg hP] at h
      rcases ih acc h with hmem | ⟨aid, ha, hg⟩
      · exact Or.inl hmem
      · exact Or.inr ⟨aid, List.mem_cons_of_mem i ha, hg⟩

/-- Every file produced by crud.list_files is a row of the files table. -/
theorem mem_crud_list_files {db : DB} {uopt aopt : Option Nat}
    {skip limit : Nat} {g : File}
    (h : g ∈ Crud.list_files db uopt aopt skip limit) : g ∈ db.files := by
  unfold Crud.list_files at h
  have h1 := List.take_subset _ _ h
  have h2 := List.drop_subset _ _ h1
  have h3 := mem_orderBy.mp h2
  by_cases ha : pyTruthyNat aopt = true
  · rw [if_pos ha] at h3
    have h4 := List.mem_filter.mp h3
    by_cases hu : pyTruthyNat uopt = true
    · rw [if_pos hu] at h4
      exact (List.mem_filter.mp h4.1).1
    · rw [if_neg hu] at h4
      exact h4.1
  · rw [if_neg ha] at h3
    by_cases hu : pyTruthyNat uopt = true
    · rw [if_pos hu] at h3
      exact (List.mem_filter.mp h3).1
    · rw [if_neg hu] at h3
      exact h3

/-- When the admin filter is a nonzero id, every file produced by
crud.list_files is owned by that admin. -/
theorem owner_crud_list_files {db : DB} {uopt : Option Nat} {aid : Nat}
    {skip limit : Nat} {g : File} (haid : aid ≠ 0)
    (h : g ∈ Crud.list_files db uopt (some aid) skip limit) :
    g.owner_admin_id = aid := by
  unfold Crud.list_files at h
  have h1 := List.take_subset _ _ h
  have h2 := List.drop_subset _ _ h1
  have h3 := mem_orderBy.mp h2
  have ht : pyTruthyNat (some aid) = true := by
    simp [pyTruthyNat, haid]
  rw [if_pos ht] at h3
  have h4 := (List.mem_filter.mp h3).2
  simpa using h4

/-! ## Characterizations of the crud update operations -/

theorem update_user_eq (hashPw : String → String) (db : DB) (uid : Nat)
    (args : UserUpdateArgs) (u : User)
    (hu : Crud.get_user_by_id db uid = some u) :
    Crud.update_user hashPw db uid args =
      some ({ db with
                users := db.users.map (fun x =>
                  if x.id == uid then applyUserArgs hashPw args u db.clock else x),
                clock := db.clock + 1 },
            applyUserArgs hashPw args u db.clock) := by
  unfold Crud.update_user applyUserArgs
  rw [hu]

theorem applyUserArgs_role (hashPw : String → String) (args : UserUpdateArgs)
    (u : User) (now : Nat) :
    (applyUserArgs hashPw args u now).role =
      (match args.role with | some r => r | none => u.role) := by
  rcases args with ⟨e, p, r⟩
  cases e <;> cases p <;> cases r <;> rfl

theorem applyUserArgs_id (hashPw : String → String) (args : UserUpdateArgs)
    (u : User) (now : Nat) : (applyUserArgs hashPw args u now).id = u.id := by
  rcases args with ⟨e, p, r⟩
  cases e <;> cases p <;> cases r <;> rfl

theorem update_comment_eq (db : DB) (cid : Nat) (t : String) (uid : Nat)
    (c : Comment) (hc : Crud.get_comment_by_id db cid = some c) :
    Crud.update_comment db cid t uid =
      some ({ db with
                comments := db.comments.map (fun x =>
                  if x.id == cid then { c with text := t, updated_at := db.clock }
                  else x),
                comment_history := db.comment_history ++
                  [{ id := db.next_history_id, comment_id := c.id,
                     action := "edited", previous_text := some c.text,
                     new_text := some t, actor_user_id := uid,
                     timestamp := db.clock + 1 }],
                next_history_id := db.next_history_id + 1,
                clock := db.clock + 2 },
            { c with text := t, updated_at := db.clock }) := by
  unfold Crud.update_comment
  rw [hc]

theorem delete_comment_eq (db : DB) (cid : Nat) (uid : Nat) (c : Comment)
    (hc : Crud.get_comment_by_id db cid = some c) :
    Crud.delete_comment db cid uid =
      ({ db with
           comments := db.comments.filter (fun x => !(x.id == cid)),
           comment_history :=
             (db.comment_history ++
               [({ id := db.next_history_id, comment_id := c.id,
                   action := "deleted", previous_text := some c.text,
                   new_text := none, actor_user_id := uid,
                   timestamp := db.clock } : CommentHistory)]).filter
               (fun h => !(h.comment_id == cid)),
           next_history_id := db.next_history_id + 1,
           clock := db.clock + 1 }, true) := by
  unfold Crud.delete_comment
  rw [hc]

theorem nat_contains_iff {l : List Nat} {n : Nat} :
    l.contains n = true ↔ n ∈ l := by
  induction l with
  | nil => simp
  | cons x xs ih =>
    rw [List.contains_cons, Bool.or_eq_true, beq_iff_eq, List.mem_cons, ih]

/-- Every id in the association-derived admin list is the id of a stored
admin row. -/
theorem mem_user_admin_ids {db : DB} {u aid : Nat}
    (h : aid ∈ (Crud.get_user_admins db u).map (fun a => a.id)) :
    ∃ a ∈ db.admins, a.id = aid := by
  obtain ⟨a, ha, rfl⟩ := List.mem_map.mp h
  unfold Crud.get_user_admins at ha
  cases hu : Crud.get_user_by_id db u with
  | none =>
    rw [hu] at ha
    simp at ha
  | some _ =>
    rw [hu] at ha
    exact ⟨a, (List.mem_filter.mp ha).1, rfl⟩

/-! ## Claim C1 -/

/-- Claim C1 states that every comment-history entry survives every
operation, including delete_comment.  This theorem evaluates the code
on a concrete run and shows the opposite: creating a comment writes one
history entry, and deleting the comment removes every history entry of
that comment, because models.py ties Comment.history to the comment
with cascade all-delete-orphan (FK ondelete CASCADE).  The entry does
not survive the parent deletion. -/
theorem comment_history_cascade_loss :
    let db0 : DB :=
      { users := [{ id := 1, email := "ana@x.com", password_hash := "ph",
                    role := RoleEnum.user }],
        admins := [{ id := 1, user_id := 2, name := "Boss" }],
        user_admins := [(1, 1)],
        files := [{ id := 1, filename := "doc.pdf", original_filename := "doc.pdf",
                    owner_admin_id := 1, uploaded_by_user_id := 1 }],
        comments := [], comment_history := [] }
    let db1 := (Crud.create_comment db0 1 1 "first text").1
    let db2 := (Crud.delete_comment db1 1 1).1
    db1.comment_history.map projEntry = [("created", none, some "first text")] ∧
    db2.comment_history = [] := by
  decide

/-! ## Claim C2 -/

/-- Claim C2 counterexample: PATCH /users/user_id (routers/users.py
update_user) is an endpoint through which a role can be set (schemas.py
UserUpdate carries a role field and crud.update_user applies it), its
get_admin_user gate admits a superadmin caller, and a request whose
target id equals the id of the caller succeeds and lowers the caller
role from superadmin to user — the endpoint performs no self-check.
This contradicts the claim that a self-targeted role update fails with
an error on every endpoint through which a role can be set. -/
theorem self_role_change_via_users_patch :
    let su : User := { id := 1, email := "root@x.com", password_hash := "ph",
                       role := RoleEnum.superadmin }
    let db : DB := { users := [su], admins := [], user_admins := [],
                     files := [], comments := [], comment_history := [] }
    get_admin_user_gate su = true ∧
    su.role = RoleEnum.superadmin ∧
    UsersRouter.update_user (fun s => s) db su 1 { role := some RoleEnum.user }
      = .ok ({ users := [{ id := 1, email := "root@x.com", password_hash := "ph",
                           role := RoleEnum.user }],
               admins := [], user_admins := [], files := [], comments := [],
               comment_history := [], clock := 1 },
             { id := 1, email := "root@x.com", password_hash := "ph",
               role := RoleEnum.user }) := by
  decide

/-- Claim C2 amended: on the dedicated role endpoint
PUT /admin/users/user_id/role (routers/admin.py update_user_role) a
request whose target id equals the caller id always fails, for every
caller and every target role value — the HTTPException aborts before
any mutation, so the caller role is unchanged — and the self-service
endpoint PATCH /users/me (routers/users.py update_current_user) removes
the role key before updating, so the role of the caller row is
preserved by every request through it.  The amendment excludes
PATCH /users/user_id, which performs no self-check (see the
counterexample). -/
theorem self_role_change_rejected_amended (hashPw : String → String)
    (db : DB) (cu : User) (uid : Nat) (r : RoleEnum) (args : UserUpdateArgs) :
    (uid = cu.id →
       (AdminRouter.update_user_role hashPw db cu uid r).isOk = false) ∧
    (∀ u0 db1 u1, Crud.get_user_by_id db cu.id = some u0 →
       UsersRouter.update_current_user hashPw db cu args = .ok (db1, u1) →
       u1.role = u0.role ∧ ∀ v ∈ db1.users, v.id = cu.id → v.role = u0.role) := by
  constructor
  · intro h
    unfold AdminRouter.update_user_role
    cases hu : Crud.get_user_by_id db uid with
    | none => rfl
    | some u =>
      have hid : u.id = uid := find?_key_eq hu
      dsimp only
      rw [if_pos (show (u.id == cu.id) = true by simp [hid, h])]
      rfl
  · intro u0 db1 u1 hu0 hres
    unfold UsersRouter.update_current_user at hres
    dsimp only at hres
    rw [update_user_eq hashPw db cu.id { args with role := none } u0 hu0] at hres
    have hpair := Except.ok.inj hres
    have hdb : ({ db with
        users := db.users.map (fun x =>
          if x.id == cu.id then
            applyUserArgs hashPw { args with role := none } u0 db.clock
          else x),
        clock := db.clock + 1 } : DB) = db1 := congrArg Prod.fst hpair
    have hu1 : applyUserArgs hashPw { args with role := none } u0 db.clock = u1 :=
      congrArg Prod.snd hpair
    have hrole : (applyUserArgs hashPw { args with role := none } u0 db.clock).role
        = u0.role := by
      rw [applyUserArgs_role]
    constructor
    · rw [← hu1, hrole]
    · intro v hv hvid
      rw [← hdb] at hv
      obtain ⟨x, hx, hfx⟩ := List.mem_map.mp hv
      by_cases hxid : (x.id == cu.id) = true
      · rw [if_pos hxid] at hfx
        rw [← hfx, hrole]
      · rw [if_neg hxid] at hfx
        exact absurd (show (x.id == cu.id) = true by rw [hfx, hvid]; simp) hxid

/-- Witness for the amended C2: a concrete superadmin attempting to
lower its own role through the dedicated role endpoint is rejected. -/
theorem self_role_change_rejected_amended_witness :
    (AdminRouter.update_user_role (fun s => s)
        { users := [{ id := 5, email := "root@x.com", password_hash := "ph",
                      role := RoleEnum.superadmin }],
          admins := [], user_admins := [], files := [], comments := [],
          comment_history := [] }
        { id := 5, email := "root@x.com", password_hash := "ph",
          role := RoleEnum.superadmin }
        5 RoleEnum.user).isOk = false :=
  (self_role_change_rejected_amended (fun s => s)
      { users := [{ id := 5, email := "root@x.com", password_hash := "ph",
                    role := RoleEnum.superadmin }],
        admins := [], user_admins := [], files := [], comments := [],
        comment_history := [] }
      { id := 5, email := "root@x.com", password_hash := "ph",
        role := RoleEnum.superadmin }
      5 RoleEnum.user {}).1 rfl

/-! ## Claim C3 -/

/-- Claim C3: a user-role caller never receives a FileRecord whose
owning AdminProfile is outside the caller association set — neither
through GET /files/file_id (a record with an outside owner yields 403)
nor through GET /files/ (every listed record has its owner in the set,
and an outside admin_id filter yields 403) — while a caller whose role
is not user (admin or superadmin) can read any stored FileRecord.  The
two nonzero-id hypotheses reflect that surrogate keys are 1-based
(SQLite autoincrement), relevant because `if admin_id:` treats the
integer 0 as absent. -/
theorem user_file_visibility (db : DB) (cu : User) :
    (∀ fid f, cu.role = RoleEnum.user → Files.get_file db cu fid = .ok f →
       f.owner_admin_id ∈ (Crud.get_user_admins db cu.id).map (fun a => a.id)) ∧
    (∀ fid f, cu.role = RoleEnum.user → Crud.get_file_by_id db fid = some f →
       f.owner_admin_id ∉ (Crud.get_user_admins db cu.id).map (fun a => a.id) →
       Files.get_file db cu fid = .error (.forbidden "Access denied")) ∧
    (∀ admin_id skip limit files total, cu.role = RoleEnum.user →
       (∀ a ∈ db.admins, a.id ≠ 0) →
       Files.list_files db cu admin_id skip limit = .ok (files, total) →
       ∀ g ∈ files,
         g.owner_admin_id ∈ (Crud.get_user_admins db cu.id).map (fun a => a.id)) ∧
    (∀ aid skip limit, cu.role = RoleEnum.user → aid ≠ 0 →
       aid ∉ (Crud.get_user_admins db cu.id).map (fun a => a.id) →
       Files.list_files db cu (some aid) skip limit
         = .error (.forbidden "You are not associated with this admin")) ∧
    (∀ fid f, cu.role ≠ RoleEnum.user → Crud.get_file_by_id db fid = some f →
       Files.get_file db cu fid = .ok f) := by
  refine ⟨?_, ?_, ?_, ?_, ?_⟩
  · intro fid f hrole hok
    unfold Files.get_file at hok
    cases hfind : Crud.get_file_by_id db fid with
    | none =>
      rw [hfind] at hok
      exact absurd hok (by simp)
    | some f0 =>
      rw [hfind] at hok
      dsimp only at hok
      rw [if_pos (by rw [hrole]; rfl)] at hok
      cases hcont : ((Crud.get_user_admins db cu.id).map (fun a => a.id)).contains
          f0.owner_admin_id with
      | true =>
        rw [hcont] at hok
        rw [if_neg (by decide)] at hok
        have hf0 := Except.ok.inj hok
        rw [← hf0]
        exact nat_contains_iff.mp hcont
      | false =>
        rw [hcont] at hok
        rw [if_pos (by decide)] at hok
        exact absurd hok (by simp)
  · intro fid f hrole hfind hnotin
    have hcont : ((Crud.get_user_admins db cu.id).map (fun a => a.id)).contains
        f.owner_admin_id = false := by
      cases h : ((Crud.get_user_admins db cu.id).map (fun a => a.id)).contains
          f.owner_admin_id with
      | true => exact absurd (nat_contains_iff.mp h) hnotin
      | false => rfl
    unfold Files.get_file
    rw [hfind]
    dsimp only
    rw [if_pos (by rw [hrole]; rfl), hcont]
    rw [if_pos (by decide)]
  · intro admin_id skip limit files total hrole hpos hres
    unfold Files.list_files at hres
    rw [if_pos (by rw [hrole]; rfl)] at hres
    dsimp only at hres
    split at hres
    · exact absurd hres (by simp)
    · have hfiles := congrArg Prod.fst (Except.ok.inj hres)
      dsimp at hfiles
      intro g hg
      rw [← hfiles] at hg
      rcases mem_foldl_filtered_append _ [] hg with hnil | ⟨aid, haid, hga⟩
      · simp at hnil
      · obtain ⟨a, hadb, haid'⟩ := mem_user_admin_ids haid
        have hane : aid ≠ 0 := by
          rw [← haid']
          exact hpos a hadb
        have := owner_crud_list_files hane hga
        rw [this]
        exact haid
  · intro aid skip limit hrole hne hnotin
    have h1 : pyTruthyNat (some aid) = true := by
      simp [pyTruthyNat, hne]
    have h2 : (((Crud.get_user_admins db cu.id).map (fun a => a.id)).contains aid)
        = false := by
      cases h : ((Crud.get_user_admins db cu.id).map (fun a => a.id)).contains aid with
      | true => exact absurd (nat_contains_iff.mp h) hnotin
      | false => rfl
    unfold Files.list_files
    rw [if_pos (by rw [hrole]; rfl)]
    dsimp only
    rw [if_pos (show (pyTruthyNat (some aid) &&
        !(((Crud.get_user_admins db cu.id).map (fun a => a.id)).contains
          ((some aid).getD 0))) = true by
      rw [show ((some aid).getD 0) = aid from rfl, h1, h2]
      rfl)]
  · intro fid f hrole hfind
    unfold Files.get_file
    rw [hfind]
    dsimp only
    rw [if_neg (show ¬(cu.role == RoleEnum.user) = true by
      intro hb
      exact hrole (by simpa using hb))]

/-- Witness for C3: user 1 is associated only with admin 1; file 10
belongs to admin 2, so user 1 gets 403 on it, a filtered listing for
admin 2 is 403, and the superadmin reads file 10. -/
theorem user_file_visibility_witness :
    Files.get_file
        { users := [{ id := 1, email := "ana@x.com", password_hash := "ph",
                      role := RoleEnum.user },
                    { id := 4, email := "root@x.com", password_hash := "ph",
                      role := RoleEnum.superadmin }],
          admins := [{ id := 1, user_id := 2, name := "Boss" },
                     { id := 2, user_id := 3, name := "Other" }],
          user_admins := [(1, 1)],
          files := [{ id := 10, filename := "secret.pdf",
                      original_filename := "secret.pdf",
                      owner_admin_id := 2, uploaded_by_user_id := 3 }],
          comments := [], comment_history := [] }
        { id := 1, email := "ana@x.com", password_hash := "ph",
          role := RoleEnum.user }
        10 = .error (.forbidden "Access denied") ∧
    Files.list_files
        { users := [{ id := 1, email := "ana@x.com", password_hash := "ph",
                      role := RoleEnum.user },
                    { id := 4, email := "root@x.com", password_hash := "ph",
                      role := RoleEnum.superadmin }],
          admins := [{ id := 1, user_id := 2, name := "Boss" },
                     { id := 2, user_id := 3, name := "Other" }],
          user_admins := [(1, 1)],
          files := [{ id := 10, filename := "secret.pdf",
                      original_filename := "secret.pdf",
                      owner_admin_id := 2, uploaded_by_user_id := 3 }],
          comments := [], comment_history := [] }
        { id := 1, email := "ana@x.com", password_hash := "ph",
          role := RoleEnum.user }
        (some 2) 0 100
      = .error (.forbidden "You are not associated with this admin") ∧
    Files.get_file
        { users := [{ id := 1, email := "ana@x.com", password_hash := "ph",
                      role := RoleEnum.user },
                    { id := 4, email := "root@x.com", password_hash := "ph",
                      role := RoleEnum.superadmin }],
          admins := [{ id := 1, user_id := 2, name := "Boss" },
                     { id := 2, user_id := 3, name := "Other" }],
          user_admins := [(1, 1)],
          files := [{ id := 10, filename := "secret.pdf",
                      original_filename := "secret.pdf",
                      owner_admin_id := 2, uploaded_by_user_id := 3 }],
          comments := [], comment_history := [] }
        { id := 4, email := "root@x.com", password_hash := "ph",
          role := RoleEnum.superadmin }
        10 = .ok { id := 10, filename := "secret.pdf",
                   original_filename := "secret.pdf",
                   owner_admin_id := 2, uploaded_by_user_id := 3 } :=
  (fun hu hs => ⟨hu.2.1 10
      { id := 10, filename := "secret.pdf", original_filename := "secret.pdf",
        owner_admin_id := 2, uploaded_by_user_id := 3 }
      rfl (by decide) (by decide),
    hu.2.2.2.1 2 0 100 rfl (by decide) (by decide),
    hs.2.2.2.2 10
      { id := 10, filename := "secret.pdf", original_filename := "secret.pdf",
        owner_admin_id := 2, uploaded_by_user_id := 3 }
      (by decide) (by decide)⟩)
    (user_file_visibility _
      { id := 1, email := "ana@x.com", password_hash := "ph",
        role := RoleEnum.user })
    (user_file_visibility _
      { id := 4, email := "root@x.com", password_hash := "ph",
        role := RoleEnum.superadmin })

/-! ## Claim C5 -/

theorem comment_find?_map_replace {l : List Comment} {k : Nat} {b : Comment}
    (hb : b.id = k) (hs : (l.find? (fun x => x.id == k)).isSome = true) :
    (l.map (fun x => if x.id == k then b else x)).find? (fun x => x.id == k)
      = some b :=
  @find?_key_map_replace Comment l (fun x => x.id) k b hb hs

theorem hist_filter_filter_ne {l : List CommentHistory} {k : Nat} :
    (l.filter (fun h => !(h.comment_id == k))).filter
      (fun h => h.comment_id == k) = [] :=
  @filter_key_filter_ne CommentHistory l (fun h => h.comment_id) k

/-- One crud.update_comment call on a stored comment: the comment text
becomes the new text and exactly one edited history row is appended,
stamped inside the step clock window. -/
theorem update_comment_step (db : DB) (cid uid : Nat) (t : String)
    (c : Comment) (hc : Crud.get_comment_by_id db cid = some c) :
    ∃ dbN, Crud.update_comment db cid t uid
        = some (dbN, { c with text := t, updated_at := db.clock }) ∧
      Crud.get_comment_by_id dbN cid
        = some { c with text := t, updated_at := db.clock } ∧
      histFor dbN cid = histFor db cid ++
        [{ id := db.next_history_id, comment_id := c.id, action := "edited",
           previous_text := some c.text, new_text := some t,
           actor_user_id := uid, timestamp := db.clock + 1 }] ∧
      dbN.clock = db.clock + 2 := by
  have hcid : c.id = cid := find?_key_eq hc
  refine ⟨_, update_comment_eq db cid t uid c hc, ?_, ?_, rfl⟩
  · unfold Crud.get_comment_by_id
    dsimp only
    rw [comment_find?_map_replace
      (show ({ c with text := t, updated_at := db.clock } : Comment).id = cid from hcid)
      (by rw [show db.comments.find? (fun x => x.id == cid) = some c from hc]; rfl)]
  · unfold histFor
    dsimp only
    rw [List.filter_append]
    congr 1
    simp [hcid]

/-- Replaying a chain of crud.update_comment calls: the history of the
comment grows by exactly one edited row per call, recording the
previous and new texts in order, timestamps strictly inside the clock
and sorted ascending. -/
theorem applyEdits_spec (cid uid : Nat) (ts : List String) :
    ∀ (db : DB) (c : Comment) (E : List (String × Option String × Option String)),
      Crud.get_comment_by_id db cid = some c →
      (histFor db cid).map projEntry = E →
      (∀ h ∈ histFor db cid, h.timestamp < db.clock) →
      (histFor db cid).Pairwise (fun a b => a.timestamp ≤ b.timestamp) →
      ∃ c2, Crud.get_comment_by_id (applyEdits cid uid ts db) cid = some c2 ∧
        (histFor (applyEdits cid uid ts db) cid).map projEntry
          = E ++ editEntries c.text ts ∧
        (∀ h ∈ histFor (applyEdits cid uid ts db) cid,
            h.timestamp < (applyEdits cid uid ts db).clock) ∧
        (histFor (applyEdits cid uid ts db) cid).Pairwise
          (fun a b => a.timestamp ≤ b.timestamp) := by
  induction ts with
  | nil =>
    intro db c E hc hE htime hpair
    simp only [applyEdits]
    refine ⟨c, hc, ?_, htime, hpair⟩
    rw [show editEntries c.text [] = [] from rfl, List.append_nil]
    exact hE
  | cons t ts ih =>
    intro db c E hc hE htime hpair
    obtain ⟨dbN, hEq, hcN, hhistN, hclockN⟩ := update_comment_step db cid uid t c hc
    simp only [applyEdits, hEq]
    have htimeN : ∀ h ∈ histFor dbN cid, h.timestamp < dbN.clock := by
      rw [hhistN, hclockN]
      intro h hm
      rcases List.mem_append.mp hm with hold | hnew
      · have := htime h hold
        omega
      · rw [List.mem_singleton.mp hnew]
        dsimp only
        omega
    have hpairN : (histFor dbN cid).Pairwise
        (fun a b => a.timestamp ≤ b.timestamp) := by
      rw [hhistN]
      refine List.pairwise_append.mpr ⟨hpair, by simp, ?_⟩
      intro a ha b hb
      rw [List.mem_singleton.mp hb]
      have := htime a ha
      dsimp only
      omega
    have hEN : (histFor dbN cid).map projEntry
        = E ++ [("edited", some c.text, some t)] := by
      rw [hhistN, List.map_append, hE]
      rfl
    obtain ⟨c2, h1, h2, h3, h4⟩ :=
      ih dbN { c with text := t, updated_at := db.clock }
        (E ++ [("edited", some c.text, some t)]) hcN hEN htimeN hpairN
    refine ⟨c2, h1, ?_, h3, h4⟩
    rw [h2, List.append_assoc]
    rfl

/-- Claim C5 counterexample: on a fresh database, create with text a
followed by delete leaves an empty history — the claimed replay
[(created, null, a), (deleted, a, null)] is not what the history
listing returns, because the deletion cascade removes the entire
history of the comment. -/
theorem comment_history_replay_delete_cex :
    let db0 : DB :=
      { users := [{ id := 1, email := "ana@x.com", password_hash := "ph",
                    role := RoleEnum.user }],
        admins := [], user_admins := [],
        files := [{ id := 1, filename := "doc.pdf", original_filename := "doc.pdf",
                    owner_admin_id := 1, uploaded_by_user_id := 1 }],
        comments := [], comment_history := [] }
    let db2 := (Crud.delete_comment (Crud.create_comment db0 1 1 "a").1 1 1).1
    ¬ ((Crud.get_comment_history db2 1).map projEntry
        = [("created", none, some "a"), ("deleted", some "a", none)]) ∧
    (Crud.get_comment_history db2 1).map projEntry = [] := by
  decide

/-- Claim C5 amended: create with text t0 writes the (created, null, t0)
row and each edit from p to n writes one (edited, p, n) row, so the
history listing of the comment — ordered by timestamp ascending, as the
listing always is — replays the full sequence of text states while the
comment exists; but the delete transition, although it writes a
(deleted, last-text, null) row, immediately removes the entire history
of the comment through the models.py cascade, so after delete the
listing is empty.  The freshness hypotheses say the autoincrement
counter next_comment_id is unused, which the schema guarantees. -/
theorem comment_history_replay_amended (db0 : DB) (fid uid : Nat)
    (t0 : String) (ts : List String)
    (hfreshC : Crud.get_comment_by_id db0 db0.next_comment_id = none)
    (hfreshH : histFor db0 db0.next_comment_id = []) :
    ((Crud.get_comment_history
        (applyEdits db0.next_comment_id uid ts (Crud.create_comment db0 fid uid t0).1)
        db0.next_comment_id).map projEntry = expectedHistory t0 ts) ∧
    (∀ (db : DB) (k : Nat), (Crud.get_comment_history db k).Pairwise
        (fun a b => a.timestamp ≤ b.timestamp)) ∧
    (∀ uid2, Crud.get_comment_history
        ((Crud.delete_comment
            (applyEdits db0.next_comment_id uid ts (Crud.create_comment db0 fid uid t0).1)
            db0.next_comment_id uid2).1)
        db0.next_comment_id = []) := by
  have hsorted : ∀ (db : DB) (k : Nat), (Crud.get_comment_history db k).Pairwise
      (fun a b => a.timestamp ≤ b.timestamp) := by
    intro db k
    have hp := @pairwise_orderBy CommentHistory
      (fun h g : CommentHistory => (h.timestamp ≤ g.timestamp : Bool))
      (fun a b => by
        rcases Nat.le_total a.timestamp b.timestamp with h | h
        · exact Or.inl (decide_eq_true h)
        · exact Or.inr (decide_eq_true h))
      (fun a b c hab hbc =>
        decide_eq_true (Nat.le_trans (of_decide_eq_true hab) (of_decide_eq_true hbc)))
      (db.comment_history.filter (fun h => h.comment_id == k))
    exact hp.imp (fun h => of_decide_eq_true h)
  have hc1 : Crud.get_comment_by_id (Crud.create_comment db0 fid uid t0).1
      db0.next_comment_id
      = some { id := db0.next_comment_id, file_id := fid, user_id := uid,
               text := t0, created_at := db0.clock, updated_at := db0.clock } := by
    unfold Crud.create_comment Crud.get_comment_by_id
    dsimp only
    rw [find?_append_of_none
      (show db0.comments.find? (fun x => x.id == db0.next_comment_id) = none from
        hfreshC)]
    rw [List.find?_cons_of_pos _ (by simp)]
  have hhist1 : histFor (Crud.create_comment db0 fid uid t0).1 db0.next_comment_id
      = [{ id := db0.next_history_id, comment_id := db0.next_comment_id,
           action := "created", previous_text := none, new_text := some t0,
           actor_user_id := uid, timestamp := db0.clock + 1 }] := by
    unfold Crud.create_comment histFor
    dsimp only
    rw [List.filter_append]
    rw [show db0.comment_history.filter
        (fun h => h.comment_id == db0.next_comment_id) = [] from hfreshH]
    simp
  obtain ⟨c2, hc2, hhist2, _, hpair2⟩ :=
    applyEdits_spec db0.next_comment_id uid ts (Crud.create_comment db0 fid uid t0).1
      { id := db0.next_comment_id, file_id := fid, user_id := uid,
        text := t0, created_at := db0.clock, updated_at := db0.clock }
      [("created", none, some t0)]
      hc1
      (by rw [hhist1]; rfl)
      (by
        rw [hhist1]
        intro h hm
        rw [List.mem_singleton.mp hm]
        show db0.clock + 1 < db0.clock + 2
        omega)
      (by rw [hhist1]; simp)
  refine ⟨?_, hsorted, ?_⟩
  · have hself : Crud.get_comment_history
        (applyEdits db0.next_comment_id uid ts (Crud.create_comment db0 fid uid t0).1)
        db0.next_comment_id
        = histFor
            (applyEdits db0.next_comment_id uid ts (Crud.create_comment db0 fid uid t0).1)
            db0.next_comment_id := by
      unfold Crud.get_comment_history histFor
      exact orderBy_eq_self (hpair2.imp (fun hab => decide_eq_true hab))
    rw [hself, hhist2]
    rfl
  · intro uid2
    unfold Crud.get_comment_history
    rw [delete_comment_eq _ _ uid2 c2 hc2]
    dsimp only
    rw [hist_filter_filter_ne]
    rfl

/-- Witness for the amended C5: create(a), edit(b), edit(c) on a fresh
store replays [(created, null, a), (edited, a, b), (edited, b, c)], and
a subsequent delete leaves the history empty. -/
theorem comment_history_replay_amended_witness :
    ((Crud.get_comment_history
        (applyEdits 1 1 ["b", "c"]
          (Crud.create_comment
            { users := [{ id := 1, email := "ana@x.com", password_hash := "ph",
                          role := RoleEnum.user }],
              admins := [], user_admins := [],
              files := [{ id := 1, filename := "doc.pdf",
                          original_filename := "doc.pdf",
                          owner_admin_id := 1, uploaded_by_user_id := 1 }],
              comments := [], comment_history := [] } 1 1 "a").1)
        1).map projEntry = expectedHistory "a" ["b", "c"]) ∧
    Crud.get_comment_history
        ((Crud.delete_comment
            (applyEdits 1 1 ["b", "c"]
              (Crud.create_comment
                { users := [{ id := 1, email := "ana@x.com", password_hash := "ph",
                              role := RoleEnum.user }],
                  admins := [], user_admins := [],
                  files := [{ id := 1, filename := "doc.pdf",
                              original_filename := "doc.pdf",
                              owner_admin_id := 1, uploaded_by_user_id := 1 }],
                  comments := [], comment_history := [] } 1 1 "a").1)
            1 1).1)
        1 = [] :=
  (fun h => ⟨h.1, h.2.2 1⟩)
    (comment_history_replay_amended
      { users := [{ id := 1, email := "ana@x.com", password_hash := "ph",
                    role := RoleEnum.user }],
        admins := [], user_admins := [],
        files := [{ id := 1, filename := "doc.pdf",
                    original_filename := "doc.pdf",
                    owner_admin_id := 1, uploaded_by_user_id := 1 }],
        comments := [], comment_history := [] }
      1 1 "a" ["b", "c"] rfl rfl)

/-! ## Claim C6 -/

/-- Claim C6: decrypting the encryption of a credential blob returns the
blob.  google_drive.py composes two external collaborators, and the
statement carries their documented contracts as hypotheses: the
cryptography Fernet API decrypts its own tokens under the same key
(here the single process-wide key of the service), and json.loads
inverts json.dumps on a serializable blob.  The theorem shows the
source composes them in the correct order, so the round trip is the
identity. -/
theorem credentials_round_trip {α : Type}
    (fernet_encrypt fernet_decrypt : String → String)
    (json_dumps : α → String) (json_loads : String → α)
    (hfernet : ∀ s, fernet_decrypt (fernet_encrypt s) = s)
    (hjson : ∀ b, json_loads (json_dumps b) = b) (b : α) :
    GoogleDriveService.decrypt_credentials fernet_decrypt json_loads
      (GoogleDriveService.encrypt_credentials fernet_encrypt json_dumps b)
        = b := by
  unfold GoogleDriveService.decrypt_credentials
    GoogleDriveService.encrypt_credentials
  rw [hfernet, hjson]

/-- Witness for C6 at a concrete instantiation of the collaborators. -/
theorem credentials_round_trip_witness :
    GoogleDriveService.decrypt_credentials id (fun s => s == "true")
      (GoogleDriveService.encrypt_credentials id
        (fun b : Bool => if b then "true" else "false") true) = true :=
  credentials_round_trip id id (fun b : Bool => if b then "true" else "false")
    (fun s => s == "true") (fun _ => rfl) (by decide) true

/-! ## Claim C7 -/

/-- Claim C7 evidence: the upload endpoint never persists a FileRecord.
The first conjunct shows every run of routers/files.py upload_file ends
in an HTTPException (in particular crud.create_file is never reached,
so no File row is ever inserted); the second evaluates the endpoint at
a fully configured input — caller associated with an admin whose Drive
credentials are set — where the claim expects the success path, and the
run instead dies on the stale admin.drive_cred_type attribute read
(the column was removed by migration 26ca7dbacc24 and the Admin model
no longer has the attribute). -/
theorem upload_file_never_persists :
    (∀ (db : DB) (cu : User) (admin_id : Option Nat) (fn : String)
       (ct desc : Option String),
       (Files.upload_file db cu admin_id fn ct desc).isOk = false) ∧
    (Files.upload_file
        { users := [{ id := 1, email := "ana@x.com", password_hash := "ph",
                      role := RoleEnum.user }],
          admins := [{ id := 1, user_id := 2, name := "Boss",
                       encrypted_drive_cred := some "gAAAAAtoken",
                       drive_folder_id := some "folder1" }],
          user_admins := [(1, 1)],
          files := [], comments := [], comment_history := [] }
        { id := 1, email := "ana@x.com", password_hash := "ph",
          role := RoleEnum.user }
        none "doc.pdf" (some "application/pdf") none
      = .error (.internalError
          "AttributeError: Admin object has no attribute drive_cred_type")) := by
  constructor
  · intro db cu admin_id fn ct desc
    unfold Files.upload_file
    rcases Crud.get_user_admins db cu.id with _ | ⟨a0, rest⟩
    · rfl
    · dsimp only
      split
      · rfl
      · split
        · rfl
        · rfl
  · decide

/-! ## Claim C4 -/

/-- Claim C4: for a stored FileRecord and any outcome of the remote
delete attempt — including every error (in the current code the attempt
always raises, because evaluating the cred_type argument reads the
removed admin.drive_cred_type attribute, and the bare except swallows
it) — the endpoint deletes the local row and returns success, and the
file is absent from every subsequent direct get and from every list
response, for every caller.  The remote failure is only logged (print),
never surfaced: the result is ok whatever remote is. -/
theorem delete_file_local_proceeds (db : DB) (cu : User) (fid : Nat)
    (remote : Except String Unit) (f : File)
    (hf : Crud.get_file_by_id db fid = some f)
    (hperm : cu.role = RoleEnum.user → f.uploaded_by_user_id = cu.id) :
    Files.delete_file db cu fid remote = .ok (Crud.delete_file db fid).1 ∧
    Crud.get_file_by_id (Crud.delete_file db fid).1 fid = none ∧
    (∀ cu2, Files.get_file (Crud.delete_file db fid).1 cu2 fid
        = .error (.notFound "File not found")) ∧
    (∀ cu2 admin_id skip limit files total,
        Files.list_files (Crud.delete_file db fid).1 cu2 admin_id skip limit
          = .ok (files, total) → ∀ g ∈ files, g.id ≠ fid) := by
  have hcond : (cu.role == RoleEnum.user && !(f.uploaded_by_user_id == cu.id))
      = false := by
    by_cases hr : cu.role = RoleEnum.user
    · simp [hr, hperm hr]
    · simp [hr]
  have hdel : Crud.delete_file db fid
      = ({ db with
             files := db.files.filter (fun x => !(x.id == fid)),
             comments := db.comments.filter (fun c => !(c.file_id == fid)),
             comment_history := db.comment_history.filter (fun h =>
               !(db.comments.any (fun c => c.file_id == fid && c.id == h.comment_id))) },
         true) := by
    unfold Crud.delete_file
    rw [hf]
  have hget : Crud.get_file_by_id (Crud.delete_file db fid).1 fid = none := by
    rw [hdel]
    exact find?_key_filter_ne
  refine ⟨?_, hget, ?_, ?_⟩
  · unfold Files.delete_file
    rw [hf]
    dsimp only
    rw [hcond]
    rfl
  · intro cu2
    unfold Files.get_file
    rw [hget]
  · intro cu2 admin_id skip limit files total hres g hg
    have hmem : g ∈ (Crud.delete_file db fid).1.files → g.id ≠ fid := by
      intro hin
      rw [hdel] at hin
      have h2 := (List.mem_filter.mp hin).2
      simpa using h2
    unfold Files.list_files at hres
    by_cases hrole : (cu2.role == RoleEnum.user) = true
    · rw [if_pos hrole] at hres
      dsimp only at hres
      split at hres
      · exact absurd hres (by simp)
      · have hfiles := congrArg Prod.fst (Except.ok.inj hres)
        dsimp at hfiles
        rw [← hfiles] at hg
        rcases mem_foldl_filtered_append _ [] hg with hnil | ⟨aid, _, hga⟩
        · simp at hnil
        · exact hmem (mem_crud_list_files hga)
    · rw [if_neg hrole] at hres
      dsimp only at hres
      have hfiles := congrArg Prod.fst (Except.ok.inj hres)
      dsimp at hfiles
      rw [← hfiles] at hg
      exact hmem (mem_crud_list_files hg)

/-- Witness for C4: an admin-role caller deletes file 1 while the
remote delete attempt errors; the endpoint still succeeds and the row
is gone from the store. -/
theorem delete_file_local_proceeds_witness :
    Files.delete_file
        { users := [{ id := 2, email := "boss@x.com", password_hash := "ph",
                      role := RoleEnum.admin }],
          admins := [{ id := 1, user_id := 2, name := "Boss",
                       encrypted_drive_cred := some "gAAAAAtoken" }],
          user_admins := [],
          files := [{ id := 1, filename := "doc.pdf",
                      original_filename := "doc.pdf",
                      drive_file_id := some "remote9",
                      owner_admin_id := 1, uploaded_by_user_id := 7 }],
          comments := [], comment_history := [] }
        { id := 2, email := "boss@x.com", password_hash := "ph",
          role := RoleEnum.admin }
        1 (.error "AttributeError")
      = .ok (Crud.delete_file
          { users := [{ id := 2, email := "boss@x.com", password_hash := "ph",
                        role := RoleEnum.admin }],
            admins := [{ id := 1, user_id := 2, name := "Boss",
                         encrypted_drive_cred := some "gAAAAAtoken" }],
            user_admins := [],
            files := [{ id := 1, filename := "doc.pdf",
                        original_filename := "doc.pdf",
                        drive_file_id := some "remote9",
                        owner_admin_id := 1, uploaded_by_user_id := 7 }],
            comments := [], comment_history := [] } 1).1 ∧
    Crud.get_file_by_id (Crud.delete_file
          { users := [{ id := 2, email := "boss@x.com", password_hash := "ph",
                        role := RoleEnum.admin }],
            admins := [{ id := 1, user_id := 2, name := "Boss",
                         encrypted_drive_cred := some "gAAAAAtoken" }],
            user_admins := [],
            files := [{ id := 1, filename := "doc.pdf",
                        original_filename := "doc.pdf",
                        drive_file_id := some "remote9",
                        owner_admin_id := 1, uploaded_by_user_id := 7 }],
            comments := [], comment_history := [] } 1).1 1 = none :=
  (fun h => ⟨h.1, h.2.1⟩)
    (delete_file_local_proceeds _ _ 1 (.error "AttributeError")
      { id := 1, filename := "doc.pdf", original_filename := "doc.pdf",
        drive_file_id := some "remote9", owner_admin_id := 1,
        uploaded_by_user_id := 7 }
      (by decide) (by decide))

/-! ## Claim C8 -/

/-- Claim C8: for a stored comment of the addressed file, update is
allowed exactly to the author — every caller with a different id,
whatever the role, receives 403 (the HTTPException aborts before any
crud call, so the comment is unchanged) — while delete is allowed to
the author or to any caller whose role is not user, removing the
comment; a non-author user-role caller receives 403 and the comment
remains. -/
theorem comment_update_delete_permissions (db : DB) (cu : User)
    (fid cid : Nat) (t : String) (c : Comment)
    (hc : Crud.get_comment_by_id db cid = some c)
    (hfid : c.file_id = fid) :
    (c.user_id ≠ cu.id →
       Files.update_comment db cu fid cid t
         = .error (.forbidden "You can only update your own comments")) ∧
    (c.user_id = cu.id →
       (Files.update_comment db cu fid cid t).isOk = true ∧
       ∀ db1 c1, Files.update_comment db cu fid cid t = .ok (db1, c1) →
         c1.text = t ∧ c1.id = c.id) ∧
    (c.user_id ≠ cu.id → cu.role = RoleEnum.user →
       Files.delete_comment db cu fid cid = .error (.forbidden "Access denied")) ∧
    ((c.user_id = cu.id ∨ cu.role ≠ RoleEnum.user) →
       Files.delete_comment db cu fid cid = .ok (Crud.delete_comment db cid cu.id).1 ∧
       Crud.get_comment_by_id (Crud.delete_comment db cid cu.id).1 cid = none) := by
  have hfile : (!(c.file_id == fid)) = false := by simp [hfid]
  refine ⟨?_, ?_, ?_, ?_⟩
  · intro hne
    unfold Files.update_comment
    rw [hc]
    dsimp only
    rw [hfile, if_neg (by simp)]
    rw [if_pos (show (!(c.user_id == cu.id)) = true by simp [hne])]
  · intro heq
    have hok : Files.update_comment db cu fid cid t
        = .ok ({ db with
                   comments := db.comments.map (fun x =>
                     if x.id == cid then { c with text := t, updated_at := db.clock }
                     else x),
                   comment_history := db.comment_history ++
                     [{ id := db.next_history_id, comment_id := c.id,
                        action := "edited", previous_text := some c.text,
                        new_text := some t, actor_user_id := cu.id,
                        timestamp := db.clock + 1 }],
                   next_history_id := db.next_history_id + 1,
                   clock := db.clock + 2 },
               { c with text := t, updated_at := db.clock }) := by
      unfold Files.update_comment
      rw [hc]
      dsimp only
      rw [hfile, if_neg (by simp)]
      rw [if_neg (show ¬(!(c.user_id == cu.id)) = true by simp [heq])]
      rw [update_comment_eq db cid t cu.id c hc]
    refine ⟨by rw [hok]; rfl, ?_⟩
    intro db1 c1 hres
    rw [hok] at hres
    have hpair := Except.ok.inj hres
    have hc1 := congrArg Prod.snd hpair
    dsimp at hc1
    rw [← hc1]
    exact ⟨rfl, rfl⟩
  · intro hne hrole
    unfold Files.delete_comment
    rw [hc]
    dsimp only
    rw [hfile, if_neg (by simp)]
    rw [if_pos (show (!(c.user_id == cu.id) && cu.role == RoleEnum.user) = true by
      simp [hne, hrole])]
  · intro hall
    have hcond : (!(c.user_id == cu.id) && cu.role == RoleEnum.user) = false := by
      rcases hall with heq | hrole
      · simp [heq]
      · simp [hrole]
    constructor
    · unfold Files.delete_comment
      rw [hc]
      dsimp only
      rw [hfile, if_neg (by simp)]
      rw [hcond]
      rfl
    · rw [delete_comment_eq db cid cu.id c hc]
      exact find?_key_filter_ne

/-- Witness for C8: user-role caller 2 can neither update nor delete
the comment of user 1. -/
theorem comment_update_delete_permissions_witness :
    Files.update_comment
        { users := [{ id := 1, email := "ana@x.com", password_hash := "ph",
                      role := RoleEnum.user },
                    { id := 2, email := "eve@x.com", password_hash := "ph",
                      role := RoleEnum.user }],
          admins := [], user_admins := [],
          files := [{ id := 1, filename := "doc.pdf",
                      original_filename := "doc.pdf",
                      owner_admin_id := 1, uploaded_by_user_id := 1 }],
          comments := [{ id := 4, file_id := 1, user_id := 1, text := "hi" }],
          comment_history := [] }
        { id := 2, email := "eve@x.com", password_hash := "ph",
          role := RoleEnum.user }
        1 4 "changed"
      = .error (.forbidden "You can only update your own comments") ∧
    Files.delete_comment
        { users := [{ id := 1, email := "ana@x.com", password_hash := "ph",
                      role := RoleEnum.user },
                    { id := 2, email := "eve@x.com", password_hash := "ph",
                      role := RoleEnum.user }],
          admins := [], user_admins := [],
          files := [{ id := 1, filename := "doc.pdf",
                      original_filename := "doc.pdf",
                      owner_admin_id := 1, uploaded_by_user_id := 1 }],
          comments := [{ id := 4, file_id := 1, user_id := 1, text := "hi" }],
          comment_history := [] }
        { id := 2, email := "eve@x.com", password_hash := "ph",
          role := RoleEnum.user }
        1 4
      = .error (.forbidden "Access denied") :=
  (fun h => ⟨h.1 (by decide), h.2.2.1 (by decide) rfl⟩)
    (comment_update_delete_permissions _ _ 1 4 "changed"
      { id := 4, file_id := 1, user_id := 1, text := "hi" }
      (by decide) rfl)

/-! ## Claim C9 -/

/-- Promotion step: with an existing target distinct from the caller and
at most one AdminProfile for the target (the schema UNIQUE constraint),
PUT role=admin succeeds and leaves exactly one AdminProfile, creating
it — with the display name derived from the email local part — only
when none existed. -/
theorem update_user_role_promote_step (hashPw : String → String) (db : DB)
    (cu : User) (uid : Nat)
    (hex : (Crud.get_user_by_id db uid).isSome = true)
    (hne : uid ≠ cu.id) (hcount : adminCountFor db uid ≤ 1) :
    (AdminRouter.update_user_role hashPw db cu uid RoleEnum.admin).isOk = true ∧
    adminCountFor
      (extractDB (AdminRouter.update_user_role hashPw db cu uid RoleEnum.admin) db)
      uid = 1 ∧
    (Crud.get_user_by_id
      (extractDB (AdminRouter.update_user_role hashPw db cu uid RoleEnum.admin) db)
      uid).isSome = true ∧
    (adminCountFor db uid = 0 →
       ∀ a, Crud.get_admin_by_user_id
             (extractDB (AdminRouter.update_user_role hashPw db cu uid RoleEnum.admin) db)
             uid = some a →
         ∀ u0, Crud.get_user_by_id db uid = some u0 →
           a.name = pyCapitalize ((u0.email.splitOn "@").headD "")) := by
  obtain ⟨u0, hu⟩ := Option.isSome_iff_exists.mp hex
  have hid : u0.id = uid := find?_key_eq hu
  have husers : ((({ db with
      users := db.users.map (fun x =>
        if x.id == uid then
          applyUserArgs hashPw { role := some RoleEnum.admin } u0 db.clock
        else x),
      clock := db.clock + 1 } : DB)).users.find?
        (fun u => u.id == uid)).isSome = true := by
    dsimp only
    rw [user_find?_map_replace
      (show (applyUserArgs hashPw { role := some RoleEnum.admin } u0 db.clock).id = uid by
        rw [applyUserArgs_id]; exact hid)
      (show (db.users.find? (fun x => x.id == uid)).isSome = true by
        rw [show db.users.find? (fun x => x.id == uid) = some u0 from hu]; rfl)]
    rfl
  unfold AdminRouter.update_user_role
  rw [hu]
  dsimp only
  rw [if_neg (show ¬(u0.id == cu.id) = true by simp [hid, hne])]
  rw [update_user_eq hashPw db uid { role := some RoleEnum.admin } u0 hu]
  dsimp only
  rw [if_pos (by decide)]
  rw [show Crud.get_admin_by_user_id
      ({ db with
           users := db.users.map (fun x =>
             if x.id == uid then
               applyUserArgs hashPw { role := some RoleEnum.admin } u0 db.clock
             else x),
           clock := db.clock + 1 } : DB) uid
      = Crud.get_admin_by_user_id db uid from rfl]
  cases hA : Crud.get_admin_by_user_id db uid with
  | some a =>
    have hA' : db.admins.find? (fun x => x.user_id == uid) = some a := hA
    have hpa := List.find?_some hA'
    have hmem : a ∈ db.admins.filter (fun x => x.user_id == uid) :=
      List.mem_filter.mpr ⟨List.mem_of_find?_eq_some hA', hpa⟩
    have hpos : 0 < adminCountFor db uid := by
      unfold adminCountFor
      exact List.length_pos_of_mem hmem
    have hone : adminCountFor db uid = 1 := by omega
    dsimp only [extractDB]
    refine ⟨rfl, hone, husers, ?_⟩
    intro h0
    omega
  | none =>
    have hA' : db.admins.find? (fun y => y.user_id == uid) = none := hA
    have h0 : adminCountFor db uid = 0 := by
      unfold adminCountFor
      rw [List.length_eq_zero, List.filter_eq_nil_iff]
      intro x hx
      exact List.find?_eq_none.mp hA' x hx
    dsimp only [extractDB]
    refine ⟨rfl, ?_, ?_, ?_⟩
    · unfold Crud.create_admin_profile adminCountFor
      dsimp only
      rw [List.filter_append, List.length_append]
      unfold adminCountFor at h0
      rw [h0]
      simp
    · unfold Crud.create_admin_profile Crud.get_user_by_id
      dsimp only
      exact husers
    · intro _ a ha u0' hu0'
      unfold Crud.create_admin_profile Crud.get_admin_by_user_id at ha
      dsimp only at ha
      rw [find?_append_of_none hA'] at ha
      rw [List.find?_cons_of_pos _ (by simp)] at ha
      have hu0eq : u0' = u0 := (Option.some.inj hu0').symm
      rw [← Option.some.inj ha, hu0eq]

/-- Demotion step: PUT role=user on an existing target distinct from the
caller succeeds and leaves the admins table untouched (no AdminProfile
is deleted on demotion). -/
theorem update_user_role_demote_step (hashPw : String → String) (db : DB)
    (cu : User) (uid : Nat)
    (hex : (Crud.get_user_by_id db uid).isSome = true)
    (hne : uid ≠ cu.id) :
    (AdminRouter.update_user_role hashPw db cu uid RoleEnum.user).isOk = true ∧
    (extractDB (AdminRouter.update_user_role hashPw db cu uid RoleEnum.user) db).admins
      = db.admins ∧
    (Crud.get_user_by_id
      (extractDB (AdminRouter.update_user_role hashPw db cu uid RoleEnum.user) db)
      uid).isSome = true := by
  obtain ⟨u0, hu⟩ := Option.isSome_iff_exists.mp hex
  have hid : u0.id = uid := find?_key_eq hu
  unfold AdminRouter.update_user_role
  rw [hu]
  dsimp only
  rw [if_neg (show ¬(u0.id == cu.id) = true by simp [hid, hne])]
  rw [update_user_eq hashPw db uid { role := some RoleEnum.user } u0 hu]
  dsimp only
  rw [if_neg (by decide)]
  dsimp only [extractDB]
  refine ⟨rfl, rfl, ?_⟩
  unfold Crud.get_user_by_id
  dsimp only
  rw [user_find?_map_replace
    (show (applyUserArgs hashPw { role := some RoleEnum.user } u0 db.clock).id = uid by
      rw [applyUserArgs_id]; exact hid)
    (show (db.users.find? (fun x => x.id == uid)).isSome = true by
      rw [show db.users.find? (fun x => x.id == uid) = some u0 from hu]; rfl)]
  rfl

/-- Claim C9: promoting a user to admin guarantees exactly one
AdminProfile (created, with the display name derived from the email
local part, only when absent), and the sequence promote, demote,
promote leaves exactly one AdminProfile — never a second one.  The
count hypothesis is the schema UNIQUE constraint on admins.user_id; the
callers pass the get_superadmin_user gate by assumption of the
endpoint. -/
theorem admin_profile_promotion_idempotent (hashPw : String → String)
    (db : DB) (cu : User) (uid : Nat)
    (hcount : adminCountFor db uid ≤ 1)
    (hex : (Crud.get_user_by_id db uid).isSome = true)
    (hne : uid ≠ cu.id) :
    let r1 := AdminRouter.update_user_role hashPw db cu uid RoleEnum.admin
    let db1 := extractDB r1 db
    let r2 := AdminRouter.update_user_role hashPw db1 cu uid RoleEnum.user
    let db2 := extractDB r2 db1
    let r3 := AdminRouter.update_user_role hashPw db2 cu uid RoleEnum.admin
    let db3 := extractDB r3 db2
    r1.isOk = true ∧ adminCountFor db1 uid = 1 ∧
    (adminCountFor db uid = 0 →
       ∀ a, Crud.get_admin_by_user_id db1 uid = some a →
         ∀ u0, Crud.get_user_by_id db uid = some u0 →
           a.name = pyCapitalize ((u0.email.splitOn "@").headD "")) ∧
    r2.isOk = true ∧ adminCountFor db2 uid = 1 ∧
    r3.isOk = true ∧ adminCountFor db3 uid = 1 := by
  obtain ⟨hok1, hcnt1, hex1, hname⟩ :=
    update_user_role_promote_step hashPw db cu uid hex hne hcount
  obtain ⟨hok2, hadm2, hex2⟩ :=
    update_user_role_demote_step hashPw
      (extractDB (AdminRouter.update_user_role hashPw db cu uid RoleEnum.admin) db)
      cu uid hex1 hne
  have hcnt2 : adminCountFor
      (extractDB
        (AdminRouter.update_user_role hashPw
          (extractDB (AdminRouter.update_user_role hashPw db cu uid RoleEnum.admin) db)
          cu uid RoleEnum.user)
        (extractDB (AdminRouter.update_user_role hashPw db cu uid RoleEnum.admin) db))
      uid = 1 := by
    unfold adminCountFor
    rw [hadm2]
    exact hcnt1
  obtain ⟨hok3, hcnt3, _, _⟩ :=
    update_user_role_promote_step hashPw
      (extractDB
        (AdminRouter.update_user_role hashPw
          (extractDB (AdminRouter.update_user_role hashPw db cu uid RoleEnum.admin) db)
          cu uid RoleEnum.user)
        (extractDB (AdminRouter.update_user_role hashPw db cu uid RoleEnum.admin) db))
      cu uid hex2 hne (by omega)
  exact ⟨hok1, hcnt1, hname, hok2, hcnt2, hok3, hcnt3⟩

/-- Witness for C9: a fresh user 1 promoted by superadmin 9, demoted,
and promoted again ends with exactly one AdminProfile. -/
theorem admin_profile_promotion_idempotent_witness :
    (AdminRouter.update_user_role (fun s => s)
        { users := [{ id := 1, email := "ana@x.com", password_hash := "ph",
                      role := RoleEnum.user },
                    { id := 9, email := "root@x.com", password_hash := "ph",
                      role := RoleEnum.superadmin }],
          admins := [], user_admins := [], files := [], comments := [],
          comment_history := [] }
        { id := 9, email := "root@x.com", password_hash := "ph",
          role := RoleEnum.superadmin }
        1 RoleEnum.admin).isOk = true ∧
    adminCountFor
      (extractDB (AdminRouter.update_user_role (fun s => s)
        { users := [{ id := 1, email := "ana@x.com", password_hash := "ph",
                      role := RoleEnum.user },
                    { id := 9, email := "root@x.com", password_hash := "ph",
                      role := RoleEnum.superadmin }],
          admins := [], user_admins := [], files := [], comments := [],
          comment_history := [] }
        { id := 9, email := "root@x.com", password_hash := "ph",
          role := RoleEnum.superadmin }
        1 RoleEnum.admin)
        { users := [{ id := 1, email := "ana@x.com", password_hash := "ph",
                      role := RoleEnum.user },
                    { id := 9, email := "root@x.com", password_hash := "ph",
                      role := RoleEnum.superadmin }],
          admins := [], user_admins := [], files := [], comments := [],
          comment_history := [] }) 1 = 1 :=
  (fun h => ⟨h.1, h.2.1⟩)
    (admin_profile_promotion_idempotent (fun s => s)
      { users := [{ id := 1, email := "ana@x.com", password_hash := "ph",
                    role := RoleEnum.user },
                  { id := 9, email := "root@x.com", password_hash := "ph",
                    role := RoleEnum.superadmin }],
        admins := [], user_admins := [], files := [], comments := [],
        comment_history := [] }
      { id := 9, email := "root@x.com", password_hash := "ph",
        role := RoleEnum.superadmin }
      1 (by decide) (by decide) (by decide))

/-! ## Claim C10 -/

/-- Claim C10: crud.associate_user_with_admin returns True and behaves
idempotently whenever both records exist (re-associating an associated
pair returns the state unchanged), and returns False exactly when the
user or the admin row is missing, changing nothing in that case. -/
theorem associate_user_admin_idempotent (db : DB) (uid aid : Nat) :
    (((Crud.get_user_by_id db uid).isSome = true ∧
        (Crud.get_admin_by_id db aid).isSome = true) →
       (Crud.associate_user_with_admin db uid aid).2 = true ∧
       Crud.associate_user_with_admin
           (Crud.associate_user_with_admin db uid aid).1 uid aid
         = ((Crud.associate_user_with_admin db uid aid).1, true)) ∧
    ((Crud.associate_user_with_admin db uid aid).2 = false ↔
       ((Crud.get_user_by_id db uid).isSome = false ∨
        (Crud.get_admin_by_id db aid).isSome = false)) ∧
    ((Crud.associate_user_with_admin db uid aid).2 = false →
       (Crud.associate_user_with_admin db uid aid).1 = db) ∧
    (db.user_admins.any (fun p => p.1 == uid && p.2 == aid) = true →
       (Crud.associate_user_with_admin db uid aid).1 = db) := by
  by_cases hu : (Crud.get_user_by_id db uid).isSome = true
  · obtain ⟨u, hu'⟩ := Option.isSome_iff_exists.mp hu
    by_cases ha : (Crud.get_admin_by_id db aid).isSome = true
    · obtain ⟨a, ha'⟩ := Option.isSome_iff_exists.mp ha
      by_cases hmem : db.user_admins.any (fun p => p.1 == uid && p.2 == aid) = true
      · have hres : Crud.associate_user_with_admin db uid aid = (db, true) := by
          simp only [Crud.associate_user_with_admin, hu', ha', if_pos hmem]
        refine ⟨fun _ => ⟨by rw [hres], ?_⟩, ?_, ?_, fun _ => by rw [hres]⟩
        · rw [hres]
          simp only [Crud.associate_user_with_admin, hu', ha', if_pos hmem]
        · rw [hres]
          simp [hu, ha]
        · intro hfalse
          rw [hres] at hfalse
          exact absurd hfalse (by simp)
      · have hres : Crud.associate_user_with_admin db uid aid
            = ({ db with user_admins := db.user_admins ++ [(uid, aid)] }, true) := by
          simp only [Crud.associate_user_with_admin, hu', ha', if_neg hmem]
        refine ⟨fun _ => ⟨by rw [hres], ?_⟩, ?_, ?_, fun h => absurd h hmem⟩
        · rw [hres]
          have hu2 : Crud.get_user_by_id
              { db with user_admins := db.user_admins ++ [(uid, aid)] } uid = some u := hu'
          have ha2 : Crud.get_admin_by_id
              { db with user_admins := db.user_admins ++ [(uid, aid)] } aid = some a := ha'
          have hmem2 : ({ db with user_admins := db.user_admins ++ [(uid, aid)] } : DB).user_admins.any
              (fun p => p.1 == uid && p.2 == aid) = true := by
            simp [List.any_append]
          simp only [Crud.associate_user_with_admin, hu2, ha2, if_pos hmem2]
        · rw [hres]
          simp [hu, ha]
        · intro hfalse
          rw [hres] at hfalse
          exact absurd hfalse (by simp)
    · have ha' : Crud.get_admin_by_id db aid = none := by
        cases h : Crud.get_admin_by_id db aid with
        | none => rfl
        | some a => exact absurd (by rw [h]; rfl) ha
      obtain ⟨u, hu'⟩ := Option.isSome_iff_exists.mp hu
      have hres : Crud.associate_user_with_admin db uid aid = (db, false) := by
        simp only [Crud.associate_user_with_admin, hu', ha']
      refine ⟨fun hboth => absurd hboth.2 ha, ?_, fun _ => by rw [hres], fun _ => by rw [hres]⟩
      rw [hres]
      simp [ha']
  · have hu' : Crud.get_user_by_id db uid = none := by
      cases h : Crud.get_user_by_id db uid with
      | none => rfl
      | some u => exact absurd (by rw [h]; rfl) hu
    have hres : Crud.associate_user_with_admin db uid aid = (db, false) := by
      simp only [Crud.associate_user_with_admin, hu']
    refine ⟨fun hboth => absurd hboth.1 hu, ?_, fun _ => by rw [hres], fun _ => by rw [hres]⟩
    rw [hres]
    simp [hu']

/-- Witness for C10: a database where user 1 and admin 1 exist; the
association succeeds and re-running it is the identity on the state. -/
theorem associate_user_admin_idempotent_witness :
    (Crud.associate_user_with_admin
        { users := [{ id := 1, email := "ana@x.com", password_hash := "ph",
                      role := RoleEnum.user }],
          admins := [{ id := 1, user_id := 2, name := "Boss" }],
          user_admins := [], files := [], comments := [],
          comment_history := [] } 1 1).2 = true ∧
    Crud.associate_user_with_admin
        (Crud.associate_user_with_admin
          { users := [{ id := 1, email := "ana@x.com", password_hash := "ph",
                        role := RoleEnum.user }],
            admins := [{ id := 1, user_id := 2, name := "Boss" }],
            user_admins := [], files := [], comments := [],
            comment_history := [] } 1 1).1 1 1
      = ((Crud.associate_user_with_admin
          { users := [{ id := 1, email := "ana@x.com", password_hash := "ph",
                        role := RoleEnum.user }],
            admins := [{ id := 1, user_id := 2, name := "Boss" }],
            user_admins := [], files := [], comments := [],
            comment_history := [] } 1 1).1, true) :=
  (associate_user_admin_idempotent _ 1 1).1 ⟨by decide, by decide⟩

end Archivos
